import Mathlib

/-!
Shallow embedding of `lib/pages/enum-setting.js` (class `EnumSetting`):
the option/group normalization methods `options` and `groupedOptions`,
and the serializer `toJson`.  JavaScript objects are modelled as Lean
structures; a possibly-absent (`undefined`) field is an `Option`; the
collaborators living outside this file's sources (the owning page's
`headers` flag and `i18nKey` function, and the base class's `translate`
function) are abstract parameters collected in `Env`.
-/

namespace EnumSetting

/-- A canonical enum option record `{id, name}`.  The `name` field may be
absent (JavaScript `undefined`), hence `Option String`. -/
structure Opt where
  id : String
  name : Option String
deriving DecidableEq, Repr

/-- A grouped-option record `{name, options}`. -/
structure Group where
  name : String
  options : List Opt
deriving DecidableEq, Repr

/-- External collaborators, per the source's uses of
`this._section._page.headers`, `this._section._page.i18nKey` and
`this.translate`.

Modelled from the spec: `i18nKey(path)` and `translate` live in the owning
page and in `section-setting.js`, which are not among the sources; the spec
says `i18nKey` mints a localization key from a dotted path and `translate`
resolves a name reference to display text (literal refs pass through,
key refs resolve).  Both are abstract `String → String` functions here;
`translate` applied to an absent name is modelled as leaving it absent. -/
structure Env where
  headers : Bool
  i18nKey : String → String
  translate : String → String

/-- The mutable fields of an `EnumSetting` instance that the embedded
methods read or write.  The constructor sets `_type = "ENUM"` and
`_description = "Tap to set"`; every other field starts absent. -/
structure EnumState where
  _id : String
  _type : String
  _description : String
  _multiple : Option Bool
  _closeOnSelection : Option Bool
  _submitOnChange : Option Bool
  _style : Option String
  _options : Option (List Opt)
  _groupedOptions : Option (List Group)
deriving DecidableEq, Repr

/-- `constructor(section, id)`: `_type = 'ENUM'`, `_description = 'Tap to set'`. -/
def enumSettingNew (id : String) : EnumState :=
  { _id := id, _type := "ENUM", _description := "Tap to set",
    _multiple := none, _closeOnSelection := none, _submitOnChange := none,
    _style := none, _options := none, _groupedOptions := none }

/-- JavaScript template-literal stringification of a possibly-absent
string: `undefined` prints as `"undefined"`. -/
def jsStr : Option String → String
  | none => "undefined"
  | some s => s

/-- `i18nOptionKey(property)` = `i18nKey('settings.<id>.options.<property>.name')`. -/
def i18nOptionKey (env : Env) (st : EnumState) (property : String) : String :=
  env.i18nKey ("settings." ++ st._id ++ ".options." ++ property ++ ".name")

/-- `i18nOptionGroupKey(property)` = `i18nKey('settings.<id>.groups.<property>.name')`. -/
def i18nOptionGroupKey (env : Env) (st : EnumState) (property : String) : String :=
  env.i18nKey ("settings." ++ st._id ++ ".groups." ++ property ++ ".name")

/-- `i18nOptionGroupOptionKey(groupName, property)` =
`i18nKey('settings.<id>.groups.<groupName>.options.<property>.name')`. -/
def i18nOptionGroupOptionKey (env : Env) (st : EnumState) (groupName property : String) : String :=
  env.i18nKey ("settings." ++ st._id ++ ".groups." ++ groupName ++
    ".options." ++ property ++ ".name")

/-- An element of the array form accepted by `groupedOptions`: either an
object (a `GroupedOption`-shaped record) or a primitive that is not an
`Object` (`group instanceof Object` is false); `prim` carries the result
of JavaScript `typeof` on it, used in the error message. -/
inductive GroupElem where
  | grp (g : Group)
  | prim (ty : String)
deriving DecidableEq, Repr

/-- The value attached to one key of the mapping form accepted by
`groupedOptions`: an array of strings, a keyed mapping from option id to
display text, or any other value (neither an array nor an `Object`,
e.g. a number or a primitive string), for which both inner branches of
the source are skipped. -/
inductive GroupVal where
  | arr (names : List String)
  | obj (pairs : List (String × String))
  | other
deriving DecidableEq, Repr

/-- The argument of `groupedOptions`: an array, a non-array `Object`
(keyed mapping, keys listed in insertion order), or a primitive that is
neither (`prim` carries its `typeof` string). -/
inductive GroupsInput where
  | arr (l : List GroupElem)
  | obj (m : List (String × GroupVal))
  | prim (ty : String)
deriving DecidableEq, Repr

/-- The array branch of `groupedOptions`, body of the `for (const group
of groups)` loop for one object element: `groupName` captures the
original `group.name`; `group.name` is rewritten to the group key when
`headers` is set; each option's `name` is rewritten using `groupName`
(the original name, not the rewritten one). -/
def normGroupArr (env : Env) (st : EnumState) (g : Group) : Group :=
  let groupName := g.name
  { name := if env.headers then i18nOptionGroupKey env st g.name else g.name,
    options := g.options.map fun option =>
      { option with
        name := if env.headers then
            some (i18nOptionGroupOptionKey env st groupName (jsStr option.name))
          else option.name } }

/-- The array branch of `groupedOptions`: object elements are normalized
in order; a non-object element throws
`TypeError('<typeof> not valid for options group item')`. -/
def normGroupsArr (env : Env) (st : EnumState) : List GroupElem → Except String (List Group)
  | [] => .ok []
  | .grp g :: rest =>
    match normGroupsArr env st rest with
    | .ok gs => .ok (normGroupArr env st g :: gs)
    | .error e => .error e
  | .prim ty :: _ => .error (ty ++ " not valid for options group item")

/-- The mapping branch of `groupedOptions` for one own-property
`(property, value)`: the group starts as `{name: property, options: []}`,
its `name` is rewritten to the group key when `headers` is set, and the
options are filled from the value; in both inner branches the option key
is minted with `group.name`, which at that point already holds the
rewritten value. -/
def normGroupMapEntry (env : Env) (st : EnumState) (property : String) (v : GroupVal) : Group :=
  let name1 := if env.headers then i18nOptionGroupKey env st property else property
  { name := name1,
    options :=
      match v with
      | .arr names => names.map fun n =>
          { id := n,
            name := some (if env.headers then i18nOptionGroupOptionKey env st name1 n else n) }
      | .obj pairs => pairs.map fun p =>
          { id := p.1,
            name := some (if env.headers then i18nOptionGroupOptionKey env st name1 p.2 else p.2) }
      | .other => [] }

/-- `groupedOptions(groups)`: array and mapping branches as above,
otherwise `TypeError('<typeof> not valid for options group')`; on
success `this._groupedOptions = values` (the assignment is the last
statement, after the whole input was processed). -/
def groupedOptions (env : Env) (st : EnumState) : GroupsInput → Except String EnumState
  | .arr l =>
    match normGroupsArr env st l with
    | .ok gs => .ok { st with _groupedOptions := some gs }
    | .error e => .error e
  | .obj m =>
    .ok { st with _groupedOptions := some (m.map fun p => normGroupMapEntry env st p.1 p.2) }
  | .prim ty => .error (ty ++ " not valid for options group")

/-- An element of the array form accepted by `options`: a plain string
(`typeof it === 'string' || it instanceof String`) or an `Option`-shaped
record. -/
inductive OptElem where
  | str (s : String)
  | record (o : Opt)
deriving DecidableEq, Repr

/-- The argument of `options`: an array, a non-array `Object` (keyed
mapping from id to display text), or a primitive (its `typeof` string),
which throws. -/
inductive OptionsInput where
  | arr (l : List OptElem)
  | obj (m : List (String × String))
  | num (n : Int)
  | str (s : String)
deriving DecidableEq, Repr

/-- One iteration of the `for (let it of options)` loop: a string is
replaced by `{id: it, name: it}`, then `it.name` is rewritten to the
option key when `headers` is set (otherwise reassigned to itself). -/
def normOptElem (env : Env) (st : EnumState) : OptElem → Opt
  | .str s =>
    let it : Opt := { id := s, name := some s }
    { it with
      name := if env.headers then some (i18nOptionKey env st (jsStr it.name)) else it.name }
  | .record o =>
    { o with
      name := if env.headers then some (i18nOptionKey env st (jsStr o.name)) else o.name }

/-- `options(options)`: array branch maps `normOptElem` over the
elements; mapping branch builds `{id: property, name: value}` with the
name rewritten to `i18nOptionKey(value)` when `headers` is set;
otherwise `TypeError('<typeof> not valid for options')`; on success
`this._options = values` (last statement). -/
def options (env : Env) (st : EnumState) : OptionsInput → Except String EnumState
  | .arr l => .ok { st with _options := some (l.map (normOptElem env st)) }
  | .obj m =>
    .ok { st with _options := some (m.map fun p =>
      { id := p.1,
        name := some (if env.headers then i18nOptionKey env st p.2 else p.2) }) }
  | .num _ => .error ("number not valid for options")
  | .str _ => .error ("string not valid for options")

/-- The instance state after a call of `options` returns or throws: a
thrown `TypeError` leaves `this` as it was, because the only assignment
to `this._options` is the method's last statement. -/
def optionsRun (env : Env) (st : EnumState) (i : OptionsInput) : EnumState :=
  match options env st i with
  | .ok st' => st'
  | .error _ => st

/-- The instance state after a call of `groupedOptions` returns or
throws; as for `optionsRun`, a throw happens before the single
assignment to `this._groupedOptions`. -/
def groupedOptionsRun (env : Env) (st : EnumState) (gi : GroupsInput) : EnumState :=
  match groupedOptions env st gi with
  | .ok st' => st'
  | .error _ => st

/-- The output document of `toJson` as a plain record; absent fields are
`none`. -/
structure Doc where
  id : String
  type : String
  description : String
  submitOnChange : Option Bool
  multiple : Option Bool
  closeOnSelection : Option Bool
  style : Option String
  options : Option (List Opt)
  groupedOptions : Option (List Group)
deriving DecidableEq, Repr

/-- Modelled from the spec: `super.toJson()` (base setting serialization
in `section-setting.js`, not among the sources) supplies the common
fields id, type tag, description and submitOnChange, merged into the
document before this class's additions. -/
def superToJson (st : EnumState) : Doc :=
  { id := st._id, type := st._type, description := st._description,
    submitOnChange := st._submitOnChange,
    multiple := none, closeOnSelection := none, style := none,
    options := none, groupedOptions := none }

/-- Rewrite of one stored option by the `toJson` loops:
`...name = this.translate(...name)`. -/
def translateOpt (env : Env) (o : Opt) : Opt :=
  { o with name := o.name.map env.translate }

/-- Rewrite of one stored group by the `toJson` loops: the group name
and every option name pass through `this.translate`. -/
def translateGroup (env : Env) (g : Group) : Group :=
  { name := env.translate g.name, options := g.options.map (translateOpt env) }

/-- `toJson()`: starts from `super.toJson()`; emits `multiple` and
`closeOnSelection` only when truthy; when `this._groupedOptions` is an
array, `result.groupedOptions = this._groupedOptions` makes the document
field an alias of the stored array, and each `name` is then reassigned
to `this.translate(name)` through that alias — so the call also updates
the stored structures; likewise for `this._options`; `style` is emitted
when truthy (the empty string is falsy).  The result is a pair:
the returned document and the instance state after the call. -/
def toJson (env : Env) (st : EnumState) : Doc × EnumState :=
  let base := superToJson st
  let mult : Option Bool := match st._multiple with | some true => some true | _ => none
  let cos : Option Bool := match st._closeOnSelection with | some true => some true | _ => none
  let go : Option (List Group) := st._groupedOptions.map (List.map (translateGroup env))
  let fo : Option (List Opt) := st._options.map (List.map (translateOpt env))
  let sty : Option String :=
    match st._style with
    | some s => if s = "" then none else some s
    | none => none
  ({ base with
      multiple := mult
      closeOnSelection := cos
      groupedOptions := go
      options := fo
      style := sty },
   { st with _groupedOptions := go, _options := fo })

/-- Contents of the caller's array after a successful `options` call
with array input: the loop variable rebinding for a string element does
not touch the caller's array, while for a record element `it.name = ...`
reassigns the `name` field of the caller's own object. -/
def optElemCallerAfter (env : Env) (st : EnumState) : OptElem → OptElem
  | .str s => .str s
  | .record o =>
    .record { o with
      name := if env.headers then some (i18nOptionKey env st (jsStr o.name)) else o.name }

/-- State of one caller-supplied group record after a successful
`groupedOptions` call with array input: `group.name = ...` and
`option.name = ...` reassign fields of the caller's own objects, which
are then pushed (`values.push(group)`) without copying. -/
def groupCallerAfter (env : Env) (st : EnumState) (g : Group) : Group :=
  normGroupArr env st g

/-! Sample environments and states used to instantiate the theorems on
concrete inputs. -/

/-- A page with localization disabled; `i18nKey` and `translate` are the
identity. -/
def envId : Env := { headers := false, i18nKey := fun s => s, translate := fun s => s }

/-- A page with localization enabled; `i18nKey` wraps its path so minted
keys are recognizable, `translate` is the identity. -/
def envKey : Env :=
  { headers := true, i18nKey := fun s => "K<" ++ s ++ ">", translate := fun s => s }

/-- A page with localization disabled whose translation function is pure
and deterministic but not idempotent: it appends an exclamation mark. -/
def envBang : Env :=
  { headers := false, i18nKey := fun s => s, translate := fun s => s ++ "!" }

/-- A freshly constructed setting with id `x`. -/
def stX : EnumState := enumSettingNew "x"

/-- A setting holding one flat option and one one-option group. -/
def stOpts : EnumState :=
  { stX with
      _options := some [{ id := "a", name := some "a" }]
      _groupedOptions := some [{ name := "g", options := [{ id := "o", name := some "o" }] }] }

/-- Helper: the array branch of `groupedOptions` throws on the first
non-object element, whatever well-shaped groups precede it. -/
theorem normGroupsArr_append_prim (env : Env) (st : EnumState)
    (gl : List Group) (ty : String) (rest : List GroupElem) :
    normGroupsArr env st (gl.map GroupElem.grp ++ GroupElem.prim ty :: rest)
      = .error (ty ++ " not valid for options group item") := by
  induction gl with
  | nil => rfl
  | cons g gs ih => simp [normGroupsArr, ih]

/-- C5: `options` throws a TypeError on a number argument and on a
primitive-string argument; `groupedOptions` throws on a top-level
argument that is neither an array nor an object, and on an array
containing a non-object element; in particular `setGroupedOptions([1,2,3])`
throws the item-level TypeError. -/
theorem options_type_errors (env : Env) (st : EnumState)
    (n : Int) (s ty : String) (gl : List Group) (rest : List GroupElem) :
    options env st (.num n) = .error ("number not valid for options")
    ∧ options env st (.str s) = .error ("string not valid for options")
    ∧ groupedOptions env st (.prim ty) = .error (ty ++ " not valid for options group")
    ∧ groupedOptions env st (.arr (gl.map GroupElem.grp ++ GroupElem.prim ty :: rest))
        = .error (ty ++ " not valid for options group item")
    ∧ groupedOptions env st
        (.arr [GroupElem.prim "number", GroupElem.prim "number", GroupElem.prim "number"])
        = .error ("number not valid for options group item") := by
  refine ⟨rfl, rfl, rfl, ?_, rfl⟩
  simp [groupedOptions, normGroupsArr_append_prim]

/-- C6: on every input that makes `options` or `groupedOptions` throw,
the instance state after the call is exactly the state before it — the
single assignment to the stored field is the method's last statement, so
a throw happens before any mutation of stored state. -/
theorem normalization_failure_preserves_state (env : Env) (st : EnumState)
    (i : OptionsInput) (gi : GroupsInput) (e e' : String) :
    (options env st i = .error e → optionsRun env st i = st)
    ∧ (groupedOptions env st gi = .error e' → groupedOptionsRun env st gi = st) := by
  constructor
  · intro h
    simp [optionsRun, h]
  · intro h
    simp [groupedOptionsRun, h]

/-- Witness for C6 at `options(42)` and `groupedOptions(1)`. -/
theorem normalization_failure_preserves_state_witness :
    optionsRun envId stX (.num 42) = stX
    ∧ groupedOptionsRun envId stX (.prim "number") = stX :=
  ⟨(normalization_failure_preserves_state envId stX (.num 42) (.prim "number")
      ("number not valid for options") ("number not valid for options group")).1 rfl,
   (normalization_failure_preserves_state envId stX (.num 42) (.prim "number")
      ("number not valid for options") ("number not valid for options group")).2 rfl⟩

/-- The group stored for a mapping entry whose value is neither an array
nor an object: the (possibly rewritten) name with no options. -/
def otherGroup (env : Env) (st : EnumState) (g : String) : Group :=
  { name := if env.headers then i18nOptionGroupKey env st g else g, options := [] }

/-- C9: `groupedOptions` with a keyed mapping never throws, and an entry
whose value is neither an array nor an object is stored as a group with
that entry's name (rewritten when localization is on) and an empty
options sequence. -/
theorem groupedOptions_map_other_value_accepted (env : Env) (st : EnumState)
    (m : List (String × GroupVal)) (g : String) :
    (∃ st', groupedOptions env st (.obj m) = .ok st')
    ∧ groupedOptions env st (.obj [(g, .other)])
        = .ok { st with _groupedOptions := some [otherGroup env st g] } := by
  refine ⟨⟨_, rfl⟩, ?_⟩
  simp [groupedOptions, normGroupMapEntry, otherGroup]

/-- C8: a successful `options` call leaves `_groupedOptions` untouched,
a successful `groupedOptions` call leaves `_options` untouched, and when
both stored fields are populated the document emitted by `toJson`
carries both `options` and `groupedOptions`. -/
theorem options_and_groupedOptions_coexist (env : Env) (st st1 st2 : EnumState)
    (i : OptionsInput) (gi : GroupsInput) (fo : List Opt) (go : List Group) :
    (options env st i = .ok st1 → st1._groupedOptions = st._groupedOptions)
    ∧ (groupedOptions env st gi = .ok st2 → st2._options = st._options)
    ∧ (st._options = some fo → st._groupedOptions = some go →
        ((toJson env st).1.options).isSome ∧ ((toJson env st).1.groupedOptions).isSome) := by
  refine ⟨?_, ?_, ?_⟩
  · intro h
    cases i <;> simp [options] at h <;> subst h <;> rfl
  · intro h
    cases gi with
    | arr l =>
      simp only [groupedOptions] at h
      cases hn : normGroupsArr env st l with
      | ok gs => rw [hn] at h; simp at h; subst h; rfl
      | error e => rw [hn] at h; simp at h
    | obj m => simp [groupedOptions] at h; subst h; rfl
    | prim ty => simp [groupedOptions] at h
  · intro h1 h2
    simp [toJson, h1, h2]

/-- Witness for C8: a setting holding both fields emits both. -/
theorem options_and_groupedOptions_coexist_witness :
    ({ stOpts with _options := some [] } : EnumState)._groupedOptions = stOpts._groupedOptions
    ∧ ({ stOpts with _groupedOptions := some [] } : EnumState)._options = stOpts._options
    ∧ (((toJson envId stOpts).1.options).isSome
        ∧ ((toJson envId stOpts).1.groupedOptions).isSome) :=
  ⟨(options_and_groupedOptions_coexist envId stOpts { stOpts with _options := some [] }
      { stOpts with _groupedOptions := some [] } (.arr []) (.obj [])
      [{ id := "a", name := some "a" }]
      [{ name := "g", options := [{ id := "o", name := some "o" }] }]).1 rfl,
   (options_and_groupedOptions_coexist envId stOpts { stOpts with _options := some [] }
      { stOpts with _groupedOptions := some [] } (.arr []) (.obj [])
      [{ id := "a", name := some "a" }]
      [{ name := "g", options := [{ id := "o", name := some "o" }] }]).2.1 rfl,
   (options_and_groupedOptions_coexist envId stOpts { stOpts with _options := some [] }
      { stOpts with _groupedOptions := some [] } (.arr []) (.obj [])
      [{ id := "a", name := some "a" }]
      [{ name := "g", options := [{ id := "o", name := some "o" }] }]).2.2 rfl rfl⟩

/-- C4 counterexample: `options([{id:'x'}])` (localization disabled)
stores the caller's record with its `name` still absent — the display
name is not defaulted to the id. -/
theorem options_record_without_name_counterexample :
    options envId stX (.arr [.record { id := "x", name := none }])
      = .ok { stX with _options := some [{ id := "x", name := none }] }
    ∧ ({ id := "x", name := none } : Opt).name ≠ some "x" := by
  exact ⟨rfl, by decide⟩

/-- C4 amended: for array input with localization disabled, a plain
string element yields an option with `id` and `name` both equal to the
string, and a record element carrying an `id` but no `name` is stored
with its `name` still absent (it is not defaulted to the id). -/
theorem options_array_normalization (env : Env) (st : EnumState) (s i : String)
    (h : env.headers = false) :
    normOptElem env st (.str s) = { id := s, name := some s }
    ∧ normOptElem env st (.record { id := i, name := none }) = { id := i, name := none }
    ∧ options env st (.arr [.str s, .record { id := i, name := none }])
        = .ok { st with _options := some [{ id := s, name := some s },
                                          { id := i, name := none }] } := by
  refine ⟨?_, ?_, ?_⟩ <;> simp [normOptElem, options, h]

/-- Witness for C4 (amended) at `options(['red', {id:'x'}])`. -/
theorem options_array_normalization_witness :
    normOptElem envId stX (.str "red") = { id := "red", name := some "red" }
    ∧ normOptElem envId stX (.record { id := "x", name := none }) = { id := "x", name := none }
    ∧ options envId stX (.arr [.str "red", .record { id := "x", name := none }])
        = .ok { stX with _options := some [{ id := "red", name := some "red" },
                                           { id := "x", name := none }] } :=
  options_array_normalization envId stX "red" "x" rfl

/-- An option with `id` and `name` both equal to a given string, the
expected shape of normalized plain-string elements. -/
def strOpt (s : String) : Opt := { id := s, name := some s }

/-- The expected group for a mapping entry from name to string array,
with localization disabled: each element becomes `strOpt`. -/
def strGroup (p : String × List String) : Group :=
  { name := p.1, options := p.2.map strOpt }

/-- The expected stored groups for `{Colors:['red','blue']}` with
localization disabled. -/
def colorsGroups : List Group :=
  [{ name := "Colors", options := [strOpt "red", strOpt "blue"] }]

/-- C7: with localization disabled, `groupedOptions` on a keyed mapping
whose values are string arrays stores, per group in key order, options
with `id` and `name` equal to the array element; in particular
`{Colors:['red','blue']}` serializes to
`groupedOptions: [{name:'Colors', options:[{id:'red',name:'red'},{id:'blue',name:'blue'}]}]`
(the modelled `translate` passes literal names through). -/
theorem groupedOptions_map_array_scenario (env : Env) (st : EnumState)
    (m : List (String × List String)) (h : env.headers = false)
    (ht : ∀ s, env.translate s = s) :
    groupedOptions env st (.obj (m.map fun p => (p.1, .arr p.2)))
      = .ok { st with _groupedOptions := some (m.map strGroup) }
    ∧ groupedOptions env st (.obj [("Colors", .arr ["red", "blue"])])
      = .ok { st with _groupedOptions := some colorsGroups }
    ∧ (toJson env { st with _groupedOptions := some colorsGroups }).1.groupedOptions
      = some colorsGroups := by
  refine ⟨?_, ?_, ?_⟩
  · simp [groupedOptions, normGroupMapEntry, h, strGroup, strOpt]
  · simp [groupedOptions, normGroupMapEntry, h, colorsGroups, strOpt]
  · simp [toJson, translateGroup, translateOpt, ht, colorsGroups, strOpt]

/-- Witness for C7 at `{Colors:['red','blue']}` with identity translate. -/
theorem groupedOptions_map_array_scenario_witness :
    groupedOptions envId stX (.obj ([("Colors", ["red", "blue"])].map fun p => (p.1, .arr p.2)))
      = .ok { stX with _groupedOptions := some ([("Colors", ["red", "blue"])].map strGroup) }
    ∧ groupedOptions envId stX (.obj [("Colors", .arr ["red", "blue"])])
      = .ok { stX with _groupedOptions := some colorsGroups }
    ∧ (toJson envId { stX with _groupedOptions := some colorsGroups }).1.groupedOptions
      = some colorsGroups :=
  groupedOptions_map_array_scenario envId stX [("Colors", ["red", "blue"])] rfl (fun _ => rfl)

/-- C2 counterexample: for array input `[{name:'G', options:[{id:'o',name:'n'}]}]`
with localization enabled, the minted option key embeds the group's
original plain name `G`, and differs from the key that would embed the
group's already-rewritten localized-key value. -/
theorem grouped_array_option_key_counterexample :
    (normGroupArr envKey stX { name := "G", options := [{ id := "o", name := some "n" }] }).options
      = [{ id := "o", name := some "K<settings.x.groups.G.options.n.name>" }]
    ∧ some "K<settings.x.groups.G.options.n.name>"
        ≠ some (i18nOptionGroupOptionKey envKey stX (i18nOptionGroupKey envKey stX "G") "n") := by
  exact ⟨rfl, by decide⟩

/-- The option minted with group-path component `gc`, id `i` and
option-path component `p`: its name is the grouped-option key. -/
def keyedOpt (env : Env) (st : EnumState) (gc i p : String) : Opt :=
  { id := i, name := some (i18nOptionGroupOptionKey env st gc p) }

/-- C2 amended: with localization enabled, the group-name component of
the options' localization path is the group's already-rewritten
localized-key value for keyed-mapping input (both the string-array and
inner-mapping value forms), but for array input it is the group's
original plain name. -/
theorem grouped_option_key_group_component (env : Env) (st : EnumState)
    (property : String) (names : List String) (pairs : List (String × String)) (g : Group)
    (h : env.headers = true) :
    (normGroupMapEntry env st property (.arr names)).options
      = names.map (fun n => keyedOpt env st (i18nOptionGroupKey env st property) n n)
    ∧ (normGroupMapEntry env st property (.obj pairs)).options
      = pairs.map (fun p => keyedOpt env st (i18nOptionGroupKey env st property) p.1 p.2)
    ∧ (normGroupArr env st g).options
      = g.options.map (fun o => keyedOpt env st g.name o.id (jsStr o.name)) := by
  refine ⟨?_, ?_, ?_⟩ <;> simp [normGroupMapEntry, normGroupArr, keyedOpt, h]

/-- Witness for C2 (amended) at a one-entry mapping and a one-group array. -/
theorem grouped_option_key_group_component_witness :
    (normGroupMapEntry envKey stX "G" (.arr ["n"])).options
      = ["n"].map (fun n => keyedOpt envKey stX (i18nOptionGroupKey envKey stX "G") n n)
    ∧ (normGroupMapEntry envKey stX "G" (.obj [("i", "t")])).options
      = [("i", "t")].map (fun p => keyedOpt envKey stX (i18nOptionGroupKey envKey stX "G") p.1 p.2)
    ∧ (normGroupArr envKey stX { name := "G", options := [{ id := "o", name := some "n" }] }).options
      = ([{ id := "o", name := some "n" }] : List Opt).map (fun o => keyedOpt envKey stX "G" o.id (jsStr o.name)) :=
  grouped_option_key_group_component envKey stX "G" ["n"] [("i", "t")]
    { name := "G", options := [{ id := "o", name := some "n" }] } rfl

/-- The stored option produced from a record element after the in-place
rewrite, as a function of the caller record; with localization on, the
name becomes the minted option key. -/
def storedOfAfter (env : Env) (st : EnumState) : OptElem → Opt
  | .record o => o
  | .str s => normOptElem env st (.str s)

/-- C10: with localization enabled, for array input the caller's record
objects come out of the call with their `name` field rewritten in place
to the minted key, and the canonical stored elements are exactly those
post-call caller records (the source pushes the caller's objects without
copying); likewise a caller's group record after `groupedOptions` equals
the stored group, its name and its options' names rewritten in place. -/
theorem array_input_aliasing_and_mutation (env : Env) (st : EnumState)
    (o : Opt) (g : Group) (l : List OptElem) (h : env.headers = true) :
    optElemCallerAfter env st (.record o)
      = .record { o with name := some (i18nOptionKey env st (jsStr o.name)) }
    ∧ (l.map (optElemCallerAfter env st)).map (storedOfAfter env st)
      = l.map (normOptElem env st)
    ∧ groupCallerAfter env st g = normGroupArr env st g
    ∧ (groupCallerAfter env st g).name = i18nOptionGroupKey env st g.name
    ∧ (groupCallerAfter env st g).options
      = g.options.map (fun o' => keyedOpt env st g.name o'.id (jsStr o'.name)) := by
  have key : ∀ e : OptElem,
      storedOfAfter env st (optElemCallerAfter env st e) = normOptElem env st e := by
    intro e
    cases e with
    | str s => rfl
    | record o' => simp [storedOfAfter, optElemCallerAfter, normOptElem]
  refine ⟨?_, ?_, rfl, ?_, ?_⟩
  · simp [optElemCallerAfter, h]
  · rw [List.map_map]
    exact List.map_congr_left fun e _ => key e
  · simp [groupCallerAfter, normGroupArr, h]
  · simp [groupCallerAfter, normGroupArr, keyedOpt, h]

/-- Witness for C10 on a concrete record, group and array. -/
theorem array_input_aliasing_and_mutation_witness :
    optElemCallerAfter envKey stX (.record { id := "o", name := some "n" })
      = .record { id := "o", name := some (i18nOptionKey envKey stX (jsStr (some "n"))) }
    ∧ ([.str "a", .record { id := "o", name := some "n" }].map (optElemCallerAfter envKey stX)).map (storedOfAfter envKey stX)
      = [.str "a", .record { id := "o", name := some "n" }].map (normOptElem envKey stX)
    ∧ groupCallerAfter envKey stX { name := "G", options := [{ id := "o", name := some "n" }] }
      = normGroupArr envKey stX { name := "G", options := [{ id := "o", name := some "n" }] }
    ∧ (groupCallerAfter envKey stX { name := "G", options := [{ id := "o", name := some "n" }] }).name
      = i18nOptionGroupKey envKey stX "G"
    ∧ (groupCallerAfter envKey stX { name := "G", options := [{ id := "o", name := some "n" }] }).options
      = ([{ id := "o", name := some "n" }] : List Opt).map (fun o' => keyedOpt envKey stX "G" o'.id (jsStr o'.name)) :=
  array_input_aliasing_and_mutation envKey stX { id := "o", name := some "n" }
    { name := "G", options := [{ id := "o", name := some "n" }] }
    [.str "a", .record { id := "o", name := some "n" }] rfl

/-- C1 counterexample: with a translation function that appends a bang,
serializing a setting that holds one flat option and one group leaves
the stored structures changed — `toJson` rewrites the stored names
through the alias it put into the document. -/
theorem toJson_mutates_stored_counterexample :
    (toJson envBang stOpts).2._options ≠ stOpts._options
    ∧ (toJson envBang stOpts).2._groupedOptions ≠ stOpts._groupedOptions := by
  decide

/-- C1 amended: `toJson` deep-copies nothing: the document's `options`
and `groupedOptions` fields are the stored structures themselves, and
after the call the stored structures hold the translated names (each
name replaced by `translate` of its previous value), not what the last
normalization call stored. -/
theorem toJson_aliases_and_rewrites_stored (env : Env) (st : EnumState) :
    (toJson env st).2._options = (toJson env st).1.options
    ∧ (toJson env st).2._groupedOptions = (toJson env st).1.groupedOptions
    ∧ (toJson env st).2._options = st._options.map (List.map (translateOpt env))
    ∧ (toJson env st).2._groupedOptions = st._groupedOptions.map (List.map (translateGroup env)) :=
  ⟨rfl, rfl, rfl, rfl⟩

/-- C3 counterexample: with the pure, deterministic translation function
that appends a bang, two successive `toJson` calls on the same setting
return different documents — the first call rewrote the stored names, so
the second translates them again. -/
theorem toJson_twice_counterexample :
    (toJson envBang ((toJson envBang stOpts).2)).1 ≠ (toJson envBang stOpts).1 := by
  decide

/-- C3 amended: when the translation function is idempotent
(`translate (translate s) = translate s`), calling `toJson` twice on the
same setting without intervening builder calls yields structurally equal
documents. -/
theorem toJson_twice_equal_of_idempotent_translate (env : Env) (st : EnumState)
    (h : ∀ s, env.translate (env.translate s) = env.translate s) :
    (toJson env ((toJson env st).2)).1 = (toJson env st).1 := by
  have hopt : ∀ o : Opt, translateOpt env (translateOpt env o) = translateOpt env o := by
    intro o
    cases o with
    | mk i n => cases n <;> simp [translateOpt, h]
  have hgrp : ∀ g : Group, translateGroup env (translateGroup env g) = translateGroup env g := by
    intro g
    cases g with
    | mk n os =>
      simp only [translateGroup, h, List.map_map]
      congr 1
      exact List.map_congr_left fun o _ => hopt o
  have ho : List.map (translateOpt env) ∘ List.map (translateOpt env)
      = List.map (translateOpt env) := by
    funext l
    simp only [Function.comp_apply, List.map_map]
    exact List.map_congr_left fun o _ => hopt o
  have hg : List.map (translateGroup env) ∘ List.map (translateGroup env)
      = List.map (translateGroup env) := by
    funext l
    simp only [Function.comp_apply, List.map_map]
    exact List.map_congr_left fun g _ => hgrp g
  cases st with
  | mk i ty d soc mu cl sy fo go =>
    simp only [toJson, superToJson, Option.map_map, ho, hg]

/-- Witness for C3 (amended) with the identity translation function. -/
theorem toJson_twice_equal_witness :
    (toJson envId ((toJson envId stOpts).2)).1 = (toJson envId stOpts).1 :=
  toJson_twice_equal_of_idempotent_translate envId stOpts (fun _ => rfl)

end EnumSetting
